import Mathlib

/-!
Verification of the mio tiered-memory subsystem against its specification.

The TypeScript sources are shallowly embedded in Lean: pure numeric code is
translated to functions over the reals and rationals, stateful components
(working-memory buffer, relational store, semantic-fact store) become explicit
state-passing functions or inductively defined step relations, and external
collaborators (embedding service, LLM, database failures) become explicit
parameters.  JavaScript numbers are modelled as real or rational numbers,
millisecond timestamps as rationals, auto-increment row ids as naturals.
-/

namespace Mio

/-! ## Embedding gateway: cosineSimilarity (src/memory/embedding.ts) -/

/-- Sum of squares of a vector, matching the normA and normB accumulators of
the TypeScript loop. -/
def sumSq (a : List ℝ) : ℝ :=
  (a.map (fun x => x * x)).sum

/-- Dot product of two vectors, matching the dot accumulator of the loop
(which runs over indices of the first vector; the lengths are equal whenever
the result is used). -/
def dotProd (a b : List ℝ) : ℝ :=
  ((a.zip b).map (fun p => p.1 * p.2)).sum

/-- Shallow embedding of cosineSimilarity from src/memory/embedding.ts:
returns 0 when lengths differ or are zero, and 0 when the denominator
sqrt(normA) * sqrt(normB) is zero; otherwise dot / denom. -/
noncomputable def cosineSimilarity (a b : List ℝ) : ℝ :=
  if a.length ≠ b.length ∨ a.length = 0 then 0
  else
    let denom := Real.sqrt (sumSq a) * Real.sqrt (sumSq b)
    if denom = 0 then 0 else dotProd a b / denom

theorem sumSq_nonneg (a : List ℝ) : 0 ≤ sumSq a := by
  unfold sumSq
  induction a with
  | nil => simp
  | cons x xs ih =>
      simp only [List.map_cons, List.sum_cons]
      nlinarith [mul_self_nonneg x]

theorem dotProd_self (a : List ℝ) : dotProd a a = sumSq a := by
  unfold dotProd sumSq
  induction a with
  | nil => simp
  | cons x xs ih => simp_all

theorem cosineSimilarity_self (a : List ℝ) (h : sumSq a ≠ 0) :
    cosineSimilarity a a = 1 := by
  unfold cosineSimilarity
  have hlen : ¬(a.length ≠ a.length ∨ a.length = 0) := by
    rintro (h1 | h1)
    · exact h1 rfl
    · apply h
      have : a = [] := List.length_eq_zero.mp h1
      simp [this, sumSq]
  rw [if_neg hlen]
  have hpos : 0 < sumSq a := lt_of_le_of_ne (sumSq_nonneg a) (Ne.symm h)
  have hdot : dotProd a a = sumSq a := dotProd_self a
  have hsqrt : Real.sqrt (sumSq a) * Real.sqrt (sumSq a) = sumSq a :=
    Real.mul_self_sqrt (le_of_lt hpos)
  simp only [hdot, hsqrt]
  rw [if_neg (ne_of_gt hpos)]
  field_simp

/-- C10: cosineSimilarity is a total function that never divides by zero.
For vectors of unequal length, of length zero, or where either vector has a
zero norm, it returns 0 rather than failing, so dedup checks and retrieval
scoring over a missing, empty, or dimension-mismatched embedding degrade to
similarity 0. -/
theorem C10_cosineSimilarity_total (a b : List ℝ) :
    (a.length ≠ b.length → cosineSimilarity a b = 0) ∧
    (a.length = 0 → cosineSimilarity a b = 0) ∧
    (sumSq a = 0 ∨ sumSq b = 0 → cosineSimilarity a b = 0) := by
  refine ⟨fun h => ?_, fun h => ?_, fun h => ?_⟩
  · unfold cosineSimilarity
    rw [if_pos (Or.inl h)]
  · unfold cosineSimilarity
    rw [if_pos (Or.inr h)]
  · unfold cosineSimilarity
    by_cases hl : a.length ≠ b.length ∨ a.length = 0
    · rw [if_pos hl]
    · rw [if_neg hl]
      have hz : Real.sqrt (sumSq a) * Real.sqrt (sumSq b) = 0 := by
        rcases h with h | h <;> simp [h, Real.sqrt_eq_zero]
      simp only [hz]
      simp

/-- Witness for C10 at a concrete input: a two-dimensional vector compared
with a one-dimensional one yields similarity 0, and a zero vector compared
with itself yields similarity 0. -/
theorem C10_cosineSimilarity_total_witness :
    cosineSimilarity [1, 2] [1] = 0 ∧ cosineSimilarity [0] [0] = 0 := by
  constructor
  · exact (C10_cosineSimilarity_total [1, 2] [1]).1 (by simp)
  · exact (C10_cosineSimilarity_total [0] [0]).2.2 (Or.inl (by simp [sumSq]))

/-! ## Data model (src/memory/types.ts, src/memory/tables.ts) -/

/-- Closeness tiers of a relational record. -/
inductive ClosenessTier where
  | stranger
  | acquaintance
  | familiar
  | close
deriving DecidableEq, Repr

/-- Numeric index of a tier, used to talk about adjacency of tier changes. -/
def tierIdx : ClosenessTier → ℕ
  | .stranger => 0
  | .acquaintance => 1
  | .familiar => 2
  | .close => 3

/-- Distance between two tiers on the stranger..close ladder. -/
def tierDist (a b : ClosenessTier) : ℕ :=
  max (tierIdx a - tierIdx b) (tierIdx b - tierIdx a)

/-- A list of tiers moves only in adjacent steps when every consecutive pair
is at distance at most one. -/
def adjacentOnly (l : List ClosenessTier) : Prop :=
  List.Chain' (fun a b => tierDist a b ≤ 1) l

instance (l : List ClosenessTier) : Decidable (adjacentOnly l) :=
  inferInstanceAs (Decidable (List.Chain' (fun a b => tierDist a b ≤ 1) l))

/-- Involvement class of the persona in an episodic memory. -/
inductive Involvement where
  | active
  | observer
  | mentioned
deriving DecidableEq, Repr

/-- SignificantEvent from src/memory/types.ts. -/
structure SignificantEvent where
  timestamp : ℚ
  description : String
  emotionalTone : String
  importance : ℚ
  sourceEpisodeId : String
  consumed : Bool
deriving DecidableEq, Repr

/-- Durable relational row (mio.relational), union of the fields used by
working-memory.ts and person-learning.ts. -/
structure RelationalRow where
  id : ℕ
  groupId : String
  userId : String
  displayName : String
  coreImpression : String
  coreImpressionUpdatedAt : ℚ
  recentImpression : String
  recentImpressionUpdatedAt : ℚ
  closenessTier : ClosenessTier
  interactionCount : ℕ
  recentInteractionCount : ℕ
  lastInteraction : ℚ
  significantEvents : List SignificantEvent
  knownNames : String
  preferredName : Option String
  createdAt : ℚ
  updatedAt : ℚ
deriving DecidableEq, Repr

/-- Durable episodic row (mio.episodic), union of the fields written by
WorkingMemory.flush and read by the retriever and the cleanup pass. -/
structure EpisodicRow where
  id : ℕ
  groupId : String
  summary : String
  participants : List String
  tags : List String
  embedding : List ℝ
  importance : ℚ
  emotionalValence : ℚ
  emotionalIntensity : ℚ
  mioInvolvement : Involvement
  accessCount : ℕ
  lastAccessed : ℚ
  eventTime : ℚ
  archived : Bool
  distilled : Bool
  distilledAt : ℚ
  createdAt : ℚ

/-- Candidate episode produced by extraction (ExtractionEpisode). -/
structure ExtractionEpisode where
  summary : String
  tags : List String
  participants : List String
  emotionalValence : ℚ
  emotionalIntensity : ℚ
  mioInvolvement : Involvement
  importance : ℚ

/-- Relational observation produced by extraction (ExtractionRelUpdate). -/
structure ExtractionRelUpdate where
  userId : String
  displayName : String
  event : String
  emotionalTone : String
  importance : ℚ

/-- Session vibe signal produced by extraction (ExtractionVibe). -/
structure ExtractionVibe where
  userId : String
  vibe : String
  ttlHours : ℚ

/-- ExtractionResult handed to WorkingMemory.ingest. -/
structure ExtractionResult where
  worthRemembering : Bool
  episodes : List ExtractionEpisode
  relationalUpdates : List ExtractionRelUpdate
  sessionVibes : List ExtractionVibe

/-- In-memory session vibe (never persisted). -/
structure SessionVibe where
  userId : String
  vibe : String
  expiresAt : ℚ

/-! ## Working Memory buffer (src/memory/working-memory.ts) -/

/-- Pending episodic item staged in the Working Memory buffer. -/
structure PendingEpisodic where
  groupId : String
  summary : String
  participants : List String
  tags : List String
  embedding : List ℝ
  importance : ℚ
  emotionalValence : ℚ
  emotionalIntensity : ℚ
  mioInvolvement : Involvement
  eventTime : ℚ

/-- Pending relational update staged in the Working Memory buffer. -/
structure PendingRelUpdate where
  groupId : String
  userId : String
  displayName : String
  event : SignificantEvent
deriving DecidableEq, Repr

/-- Full state of the Working Memory buffer together with the durable store
collections it reads and writes.  The two nextId counters model the
auto-increment primary keys of the store. -/
structure WMState where
  pendingEpisodic : List PendingEpisodic
  pendingRelUpdates : List PendingRelUpdate
  sessionVibes : List (String × SessionVibe)
  episodicDb : List EpisodicRow
  relationalDb : List RelationalRow
  nextEpId : ℕ
  nextRelId : ℕ

/-- Tier derived from interaction counters alone, the non-silence branch of
WorkingMemory.computeClosenessTier. -/
def countsTier (total recent : ℕ) : ClosenessTier :=
  if 50 ≤ total ∧ 5 ≤ recent then .close
  else if 15 ≤ total ∧ 2 ≤ recent then .familiar
  else if 3 ≤ total then .acquaintance
  else .stranger

/-- One-step downgrade map used after a 30-day silence. -/
def downgradeMap : ClosenessTier → ClosenessTier
  | .close => .familiar
  | .familiar => .acquaintance
  | .acquaintance => .stranger
  | .stranger => .stranger

/-- Shallow embedding of WorkingMemory.computeClosenessTier
(src/memory/working-memory.ts lines 270-290).  daysSince is computed in days
from millisecond timestamps; more than 30 days of silence with a known
current tier downgrades exactly one step, otherwise the tier is recomputed
from the counters. -/
def computeClosenessTier (total recent : ℕ) (lastInteraction now : ℚ)
    (currentTier : Option ClosenessTier) : ClosenessTier :=
  let daysSince := (now - lastInteraction) / 86400000
  match currentTier with
  | some t => if 30 < daysSince then downgradeMap t else countsTier total recent
  | none => countsTier total recent

/-- Shallow embedding of computeClosenessTier from
src/memory/person-learning.ts lines 155-177, which has no recent-interaction
counter and always receives a current tier. -/
def computeClosenessTierPL (total : ℕ) (lastInteraction now : ℚ)
    (currentTier : ClosenessTier) : ClosenessTier :=
  let daysSince := (now - lastInteraction) / 86400000
  if 30 < daysSince then downgradeMap currentTier
  else if 50 ≤ total then .close
  else if 15 ≤ total then .familiar
  else if 3 ≤ total then .acquaintance
  else .stranger

/-- Shallow embedding of WorkingMemory.upsertRelational: find the existing
row for (groupId, userId); update counters, last-interaction time, the
trailing 20 significant events and the closeness tier, or create a fresh
stranger row.  Returns the new relational collection and next row id. -/
def upsertRelational (db : List RelationalRow) (nextId : ℕ)
    (rel : PendingRelUpdate) (now : ℚ) : List RelationalRow × ℕ :=
  match db.find? (fun r => r.groupId == rel.groupId && r.userId == rel.userId) with
  | some record =>
      let events := record.significantEvents ++ [rel.event]
      let trimmed := events.drop (events.length - 20)
      let newCount := record.interactionCount + 1
      let tier := computeClosenessTier newCount (record.recentInteractionCount + 1)
        record.lastInteraction now (some record.closenessTier)
      (db.map (fun r =>
        if r.id == record.id then
          { r with
            displayName := rel.displayName
            interactionCount := newCount
            recentInteractionCount := record.recentInteractionCount + 1
            lastInteraction := now
            significantEvents := trimmed
            closenessTier := tier
            updatedAt := now }
        else r), nextId)
  | none =>
      (db ++ [{
        id := nextId
        groupId := rel.groupId
        userId := rel.userId
        displayName := rel.displayName
        coreImpression := ""
        coreImpressionUpdatedAt := now
        recentImpression := ""
        recentImpressionUpdatedAt := now
        closenessTier := .stranger
        interactionCount := 1
        recentInteractionCount := 1
        lastInteraction := now
        significantEvents := [rel.event]
        knownNames := "[]"
        preferredName := none
        createdAt := now
        updatedAt := now }], nextId + 1)

/-- Sequential application of pending relational updates, as the flush loop
does one await per item. -/
def applyRelUpdates (db : List RelationalRow) (nextId : ℕ)
    (updates : List PendingRelUpdate) (now : ℚ) : List RelationalRow × ℕ :=
  updates.foldl (fun acc rel => upsertRelational acc.1 acc.2 rel now) (db, nextId)

/-- Durable episodic row created by one flush write for one pending item. -/
def epToRow (now : ℚ) (id : ℕ) (ep : PendingEpisodic) : EpisodicRow :=
  { id := id
    groupId := ep.groupId
    summary := ep.summary
    participants := ep.participants
    tags := ep.tags
    embedding := ep.embedding
    importance := ep.importance
    emotionalValence := ep.emotionalValence
    emotionalIntensity := ep.emotionalIntensity
    mioInvolvement := ep.mioInvolvement
    accessCount := 0
    lastAccessed := now
    eventTime := ep.eventTime
    archived := false
    distilled := false
    distilledAt := 0
    createdAt := now }

/-- Rows created by the episodic write loop, with sequential fresh ids. -/
def mkRows (now : ℚ) (startId : ℕ) : List PendingEpisodic → List EpisodicRow
  | [] => []
  | ep :: rest => epToRow now startId ep :: mkRows now (startId + 1) rest

/-- Shallow embedding of WorkingMemory.flush.  The writes run one by one
inside a try/catch; failAt gives the position, in the write sequence
(episodic writes first, then relational upserts), of the first write that
throws, or none when every write succeeds.  On failure the error is caught:
the rows already written stay in the store and both pending queues are
retained; on success both queues are cleared. -/
def flush (st : WMState) (failAt : Option ℕ) (now : ℚ) : WMState :=
  if st.pendingEpisodic.isEmpty ∧ st.pendingRelUpdates.isEmpty then st
  else
    let nE := st.pendingEpisodic.length
    let nR := st.pendingRelUpdates.length
    let allOk : WMState :=
      let rel := applyRelUpdates st.relationalDb st.nextRelId st.pendingRelUpdates now
      { st with
        episodicDb := st.episodicDb ++ mkRows now st.nextEpId st.pendingEpisodic
        relationalDb := rel.1
        pendingEpisodic := []
        pendingRelUpdates := []
        nextEpId := st.nextEpId + nE
        nextRelId := rel.2 }
    match failAt with
    | some k =>
        if k < nE then
          { st with
            episodicDb := st.episodicDb ++ mkRows now st.nextEpId (st.pendingEpisodic.take k)
            nextEpId := st.nextEpId + k }
        else if k < nE + nR then
          let rel := applyRelUpdates st.relationalDb st.nextRelId
            (st.pendingRelUpdates.take (k - nE)) now
          { st with
            episodicDb := st.episodicDb ++ mkRows now st.nextEpId st.pendingEpisodic
            relationalDb := rel.1
            nextEpId := st.nextEpId + nE
            nextRelId := rel.2 }
        else allOk
    | none => allOk

/-- Dedup check 1 of WorkingMemory.ingest: the candidate embedding is within
strict cosine similarity 0.9 of some pending candidate of the same group. -/
noncomputable def dupInPending (g : String) (e : List ℝ)
    (pending : List PendingEpisodic) : Bool :=
  pending.any (fun p =>
    p.groupId == g && !p.embedding.isEmpty &&
      decide ((0.9 : ℝ) < cosineSimilarity e p.embedding))

/-- Dedup check 2 of WorkingMemory.ingest, over the rows loaded from the
store for this group with archived = false. -/
noncomputable def dupInDb (e : List ℝ) (rows : List EpisodicRow) : Bool :=
  rows.any (fun r =>
    !r.embedding.isEmpty && decide ((0.9 : ℝ) < cosineSimilarity e r.embedding))

/-- Pending queue entry built from an accepted candidate. -/
def mkPending (g : String) (now : ℚ) (ep : ExtractionEpisode) (e : List ℝ) :
    PendingEpisodic :=
  { groupId := g
    summary := ep.summary
    participants := ep.participants
    tags := ep.tags
    embedding := e
    importance := ep.importance
    emotionalValence := ep.emotionalValence
    emotionalIntensity := ep.emotionalIntensity
    mioInvolvement := ep.mioInvolvement
    eventTime := now }

/-- Rows of one group loaded for dedup, the database get with groupId and
archived false. -/
def groupSnap (st : WMState) (g : String) : List EpisodicRow :=
  st.episodicDb.filter (fun r => r.groupId == g && !r.archived)

/-- Candidate loop of WorkingMemory.ingest: each accepted candidate is pushed
onto the pending queue before the next candidate is examined, so later
candidates dedup against earlier ones of the same batch. -/
noncomputable def ingestEpisodesLoop (g : String) (now : ℚ)
    (dbSnap : List EpisodicRow) (pending0 : List PendingEpisodic)
    (items : List (ExtractionEpisode × List ℝ)) : List PendingEpisodic :=
  items.foldl (fun pending item =>
    if dupInPending g item.2 pending then pending
    else if dupInDb item.2 dbSnap then pending
    else pending ++ [mkPending g now item.1 item.2]) pending0

/-- JavaScript Map.set on the session-vibe map keyed by group:user. -/
def setVibe (m : List (String × SessionVibe)) (key : String) (v : SessionVibe) :
    List (String × SessionVibe) :=
  if m.any (fun p => p.1 == key) then
    m.map (fun p => if p.1 == key then (key, v) else p)
  else m ++ [(key, v)]

/-- Shallow embedding of WorkingMemory.ingest.  embeds are the vectors
returned by the order-preserving embedBatch call; embedOk = false models the
caught embedding failure, which skips the whole episodic block but still
applies relational updates and vibes.  autoFailAt is the failure oracle for
the flush that ingest triggers itself when the queue reaches
maxPendingWrites. -/
noncomputable def ingest (maxPendingWrites : ℕ) (st : WMState) (g : String)
    (result : ExtractionResult) (embeds : List (List ℝ)) (embedOk : Bool)
    (now : ℚ) (autoFailAt : Option ℕ) : WMState :=
  if !result.worthRemembering then st
  else
    let st1 :=
      if result.episodes.length ≠ 0 ∧ embedOk = true then
        let newPending := ingestEpisodesLoop g now (groupSnap st g) st.pendingEpisodic
          (result.episodes.zip embeds)
        { st with pendingEpisodic := newPending }
      else st
    let newRel := st1.pendingRelUpdates ++ result.relationalUpdates.map (fun rel =>
      { groupId := g
        userId := rel.userId
        displayName := rel.displayName
        event := {
          timestamp := now
          description := rel.event
          emotionalTone := rel.emotionalTone
          importance := rel.importance
          sourceEpisodeId := ""
          consumed := false } })
    let st2 := { st1 with pendingRelUpdates := newRel }
    let newVibes := result.sessionVibes.foldl (fun m v =>
      setVibe m (g ++ ":" ++ v.userId)
        { userId := v.userId
          vibe := v.vibe
          expiresAt := now + v.ttlHours * 3600000 }) st2.sessionVibes
    let st3 := { st2 with sessionVibes := newVibes }
    if maxPendingWrites ≤ st3.pendingEpisodic.length then flush st3 autoFailAt now
    else st3

/-! ## Person observation writer, Part B (src/memory/person-learning.ts) -/

/-- Shallow embedding of the relational-metadata update of
processPersonObservations (Part B).  One call handles the whole batch of
observations for one user: an existing record gains the batch size on its
interaction count and has its tier recomputed by computeClosenessTierPL; a
missing record is created as a stranger whose interaction count is the batch
size. -/
def personRelUpsert (db : List RelationalRow) (nextId : ℕ)
    (g userId displayName : String) (obsCount : ℕ) (now : ℚ) :
    List RelationalRow × ℕ :=
  match db.find? (fun r => r.groupId == g && r.userId == userId) with
  | some record =>
      let newCount := record.interactionCount + obsCount
      let tier := computeClosenessTierPL newCount record.lastInteraction now
        record.closenessTier
      (db.map (fun r =>
        if r.id == record.id then
          { r with
            displayName := displayName
            interactionCount := newCount
            lastInteraction := now
            closenessTier := tier
            updatedAt := now }
        else r), nextId)
  | none =>
      (db ++ [{
        id := nextId
        groupId := g
        userId := userId
        displayName := displayName
        coreImpression := ""
        coreImpressionUpdatedAt := now
        recentImpression := ""
        recentImpressionUpdatedAt := now
        closenessTier := .stranger
        interactionCount := obsCount
        recentInteractionCount := 0
        lastInteraction := now
        significantEvents := []
        knownNames := "[]"
        preferredName := none
        createdAt := now
        updatedAt := now }], nextId + 1)

/-! ## C3: closeness tier transitions -/

/-- Relational store after a first person-observation batch of 49
observations for user u of group g at time 0: the record is created as a
stranger with interaction count 49. -/
def c3Step1 : List RelationalRow × ℕ :=
  personRelUpsert [] 0 "g" "u" "n" 49 0

/-- Relational store after a second batch of one observation one millisecond
later. -/
def c3Step2 : List RelationalRow × ℕ :=
  personRelUpsert c3Step1.1 c3Step1.2 "g" "u" "n" 1 1

/-- Closeness tier recorded for user u of group g. -/
def c3TierOf (db : List RelationalRow) : ClosenessTier :=
  match db.find? (fun r => r.groupId == "g" && r.userId == "u") with
  | some r => r.closenessTier
  | none => .stranger

/-- Tier of the record after each of the two updates. -/
def c3Trace : List ClosenessTier :=
  [c3TierOf c3Step1.1, c3TierOf c3Step2.1]

/-- C3 counterexample: a concrete sequence of two interaction updates moves
the record of one person from stranger directly to close, a three-step jump,
because the upgrade branch recomputes the tier from the interaction counters
with no regard for the current tier.  This refutes the claim that every tier
change is adjacent-step. -/
theorem C3_counterexample :
    c3Trace = [.stranger, .close] ∧ ¬ adjacentOnly c3Trace := by
  have h1 : c3Step1 = ([{
      id := 0
      groupId := "g"
      userId := "u"
      displayName := "n"
      coreImpression := ""
      coreImpressionUpdatedAt := 0
      recentImpression := ""
      recentImpressionUpdatedAt := 0
      closenessTier := .stranger
      interactionCount := 49
      recentInteractionCount := 0
      lastInteraction := 0
      significantEvents := []
      knownNames := "[]"
      preferredName := none
      createdAt := 0
      updatedAt := 0 }], 1) := by
    simp [c3Step1, personRelUpsert]
  have htier : computeClosenessTierPL 50 0 1 .stranger = .close := by
    unfold computeClosenessTierPL
    norm_num
  have h2 : c3Trace = [.stranger, .close] := by
    simp [c3Trace, c3TierOf, c3Step2, h1, personRelUpsert, htier]
  refine ⟨h2, ?_⟩
  rw [h2]
  simp [adjacentOnly, tierDist, tierIdx]

/-- C3 amended: only the silence-triggered downgrade is guaranteed
adjacent-step.  In both implementations of computeClosenessTier, more than
30 days of silence moves the tier exactly one step down the downgrade map;
the upgrade branch recomputes the tier from the interaction counters and can
skip tiers, as C3_counterexample shows. -/
theorem C3_amended (total recent : ℕ) (last now : ℚ) (t : ClosenessTier)
    (h : (30 : ℚ) < (now - last) / 86400000) :
    computeClosenessTier total recent last now (some t) = downgradeMap t ∧
    computeClosenessTierPL total last now t = downgradeMap t ∧
    tierDist (downgradeMap t) t ≤ 1 := by
  refine ⟨?_, ?_, ?_⟩
  · unfold computeClosenessTier
    simp [h]
  · unfold computeClosenessTierPL
    simp [h]
  · cases t <;> decide

/-- Witness for C3_amended: a record at tier close, 45 days after its last
interaction, downgrades to familiar (one step) in both implementations. -/
theorem C3_amended_witness :
    computeClosenessTier 60 1 0 (45 * 86400000) (some .close) = .familiar ∧
    computeClosenessTierPL 60 0 (45 * 86400000) .close = .familiar := by
  have h := C3_amended 60 1 0 (45 * 86400000) .close (by norm_num)
  exact ⟨h.1, h.2.1⟩

/-! ## C6: flush failure semantics -/

/-- C6: a failing durable write during flush is caught (flush stays a total
function); the writes already performed stay persisted, so a prefix of the
episodic queue may be committed, and both pending queues are retained
unchanged for the next tick.  On a fully successful flush all episodic rows
and relational upserts are applied and both queues are cleared.  Delivery is
therefore at-least-once and not atomic across items. -/
theorem C6_flush_semantics (st : WMState) (now : ℚ) :
    (∀ k, k < st.pendingEpisodic.length + st.pendingRelUpdates.length →
      (flush st (some k) now).pendingEpisodic = st.pendingEpisodic ∧
      (flush st (some k) now).pendingRelUpdates = st.pendingRelUpdates ∧
      (flush st (some k) now).episodicDb =
        st.episodicDb ++ mkRows now st.nextEpId (st.pendingEpisodic.take k)) ∧
    ((flush st none now).pendingEpisodic = [] ∧
     (flush st none now).pendingRelUpdates = [] ∧
     (flush st none now).episodicDb =
       st.episodicDb ++ mkRows now st.nextEpId st.pendingEpisodic ∧
     (flush st none now).relationalDb =
       (applyRelUpdates st.relationalDb st.nextRelId st.pendingRelUpdates now).1) := by
  constructor
  · intro k hk
    unfold flush
    by_cases hemp : st.pendingEpisodic.isEmpty ∧ st.pendingRelUpdates.isEmpty
    · have h1 : st.pendingEpisodic = [] := List.isEmpty_iff.mp hemp.1
      have h2 : st.pendingRelUpdates = [] := List.isEmpty_iff.mp hemp.2
      rw [h1, h2] at hk
      simp at hk
    · rw [if_neg hemp]
      by_cases h1 : k < st.pendingEpisodic.length
      · simp only [if_pos h1]
        simp
      · have h2 : k < st.pendingEpisodic.length + st.pendingRelUpdates.length := hk
        have htake : st.pendingEpisodic.take k = st.pendingEpisodic :=
          List.take_of_length_le (Nat.le_of_not_lt h1)
        simp only [if_neg h1, if_pos h2]
        simp [htake]
  · unfold flush
    by_cases hemp : st.pendingEpisodic.isEmpty ∧ st.pendingRelUpdates.isEmpty
    · have h1 : st.pendingEpisodic = [] := List.isEmpty_iff.mp hemp.1
      have h2 : st.pendingRelUpdates = [] := List.isEmpty_iff.mp hemp.2
      rw [if_pos hemp]
      refine ⟨h1, h2, ?_, ?_⟩
      · rw [h1]; simp [mkRows]
      · rw [h2]; simp [applyRelUpdates]
    · rw [if_neg hemp]
      simp

/-- Concrete pending episodic item used by witnesses. -/
def wEp : PendingEpisodic :=
  { groupId := "g1"
    summary := "s"
    participants := ["u1"]
    tags := ["t"]
    embedding := [1]
    importance := 1/2
    emotionalValence := 0
    emotionalIntensity := 0
    mioInvolvement := .observer
    eventTime := 0 }

/-- Concrete Working Memory state with one pending episodic item. -/
def c6St : WMState :=
  { pendingEpisodic := [wEp]
    pendingRelUpdates := []
    sessionVibes := []
    episodicDb := []
    relationalDb := []
    nextEpId := 0
    nextRelId := 0 }

/-- Witness for C6 at a concrete state: a write failure at position 0 leaves
the single-item queue untouched and commits nothing, while a successful
flush clears the queue. -/
theorem C6_flush_semantics_witness :
    (flush c6St (some 0) 0).pendingEpisodic = c6St.pendingEpisodic ∧
    (flush c6St none 0).pendingEpisodic = [] := by
  have h := C6_flush_semantics c6St 0
  exact ⟨(h.1 0 (by simp [c6St])).1, h.2.1⟩

/-! ## C1: ingest dedup and dedup idempotence -/

/-- Extraction result carrying exactly one candidate episode. -/
def singleResult (ep : ExtractionEpisode) : ExtractionResult :=
  { worthRemembering := true
    episodes := [ep]
    relationalUpdates := []
    sessionVibes := [] }

theorem mkRows_length (now : ℚ) (i : ℕ) (l : List PendingEpisodic) :
    (mkRows now i l).length = l.length := by
  induction l generalizing i with
  | nil => rfl
  | cons x xs ih => simp [mkRows, ih]

theorem sumSq_ne_zero_ne_nil {e : List ℝ} (he : sumSq e ≠ 0) : e ≠ [] := by
  intro h
  exact he (by simp [h, sumSq])

theorem dupInPending_self (g : String) (now : ℚ) (ep : ExtractionEpisode)
    (e : List ℝ) (he : sumSq e ≠ 0) :
    dupInPending g e [mkPending g now ep e] = true := by
  unfold dupInPending mkPending
  simp [decide_eq_true_eq, List.isEmpty_iff, sumSq_ne_zero_ne_nil he,
    cosineSimilarity_self e he]
  norm_num

/-- Pending queue produced by ingesting one candidate.  This lemma isolates
the candidate loop from the rest of ingest. -/
theorem ingest_single_pending (mpw : ℕ) (st : WMState) (g : String)
    (ep : ExtractionEpisode) (e : List ℝ) (now : ℚ) (auto : Option ℕ)
    (hcap : (ingestEpisodesLoop g now (groupSnap st g) st.pendingEpisodic
      [(ep, e)]).length < mpw) :
    ingest mpw st g (singleResult ep) [e] true now auto =
      { st with pendingEpisodic :=
          ingestEpisodesLoop g now (groupSnap st g) st.pendingEpisodic [(ep, e)] } := by
  unfold ingest singleResult
  simp only [List.length_cons, List.length_nil, List.zip_cons_cons, List.zip_nil_right,
    List.map_nil, List.append_nil, Bool.not_true, List.foldl_nil]
  rw [if_neg (show ¬(false = true) by simp)]
  have hc : (0 + 1 ≠ 0 ∧ True) := by simp
  simp only [if_pos hc]
  rw [if_neg (Nat.not_le_of_lt hcap)]

theorem ingestEpisodesLoop_single_reject (g : String) (now : ℚ)
    (snap : List EpisodicRow) (pending : List PendingEpisodic)
    (ep : ExtractionEpisode) (e : List ℝ)
    (h : dupInPending g e pending = true ∨ dupInDb e snap = true) :
    ingestEpisodesLoop g now snap pending [(ep, e)] = pending := by
  unfold ingestEpisodesLoop
  rcases h with h | h
  · simp [h]
  · cases hp : dupInPending g e pending <;> simp [h, hp]

theorem ingestEpisodesLoop_single_accept (g : String) (now : ℚ)
    (snap : List EpisodicRow) (pending : List PendingEpisodic)
    (ep : ExtractionEpisode) (e : List ℝ)
    (hp : dupInPending g e pending = false) (hd : dupInDb e snap = false) :
    ingestEpisodesLoop g now snap pending [(ep, e)] =
      pending ++ [mkPending g now ep e] := by
  unfold ingestEpisodesLoop
  simp [hp, hd]

/-- C1 amended: the dedup thresholds of WorkingMemory.ingest are strict.  A
candidate episode is rejected when its cosine similarity is strictly greater
than 0.9 against a pending candidate of the same community or a non-archived
durable episode of that community, and otherwise joins the per-community
pending queue; a candidate at similarity exactly 0.9 is accepted (see
C1_counterexample).  Ingesting the same candidate (with nonzero embedding)
twice and then flushing creates exactly one durable episodic row. -/
theorem C1_amended (mpw : ℕ) (st : WMState) (g : String) (ep : ExtractionEpisode)
    (e : List ℝ) (now now2 : ℚ) (auto : Option ℕ) :
    ((dupInPending g e st.pendingEpisodic = true ∨ dupInDb e (groupSnap st g) = true) →
      st.pendingEpisodic.length < mpw →
      (ingest mpw st g (singleResult ep) [e] true now auto).pendingEpisodic =
        st.pendingEpisodic) ∧
    (dupInPending g e st.pendingEpisodic = false → dupInDb e (groupSnap st g) = false →
      st.pendingEpisodic.length + 1 < mpw →
      (ingest mpw st g (singleResult ep) [e] true now auto).pendingEpisodic =
        st.pendingEpisodic ++ [mkPending g now ep e]) ∧
    (sumSq e ≠ 0 → dupInDb e (groupSnap st g) = false →
      st.pendingEpisodic = [] → st.pendingRelUpdates = [] → 2 ≤ mpw →
      (flush (ingest mpw (ingest mpw st g (singleResult ep) [e] true now none) g
          (singleResult ep) [e] true now none) none now2).episodicDb.length =
        st.episodicDb.length + 1) := by
  refine ⟨?_, ?_, ?_⟩
  · intro hdup hcap
    have hloop := ingestEpisodesLoop_single_reject g now (groupSnap st g)
      st.pendingEpisodic ep e hdup
    rw [ingest_single_pending mpw st g ep e now auto (by rw [hloop]; exact hcap)]
    exact hloop
  · intro hp hd hcap
    have hloop := ingestEpisodesLoop_single_accept g now (groupSnap st g)
      st.pendingEpisodic ep e hp hd
    rw [ingest_single_pending mpw st g ep e now auto (by rw [hloop]; simpa using hcap)]
    exact hloop
  · intro he hd hq hr hm
    have hp0 : dupInPending g e st.pendingEpisodic = false := by
      rw [hq]; rfl
    have hloop1 := ingestEpisodesLoop_single_accept g now (groupSnap st g)
      st.pendingEpisodic ep e hp0 hd
    have hlen1 : (ingestEpisodesLoop g now (groupSnap st g) st.pendingEpisodic
        [(ep, e)]).length < mpw := by
      rw [hloop1, hq]
      simpa using hm
    have h1 : ingest mpw st g (singleResult ep) [e] true now none =
        { st with pendingEpisodic := [mkPending g now ep e] } := by
      rw [ingest_single_pending mpw st g ep e now none hlen1, hloop1, hq]
      simp
    rw [h1]
    have hq1 : ({ st with pendingEpisodic := [mkPending g now ep e] } :
        WMState).pendingEpisodic = [mkPending g now ep e] := rfl
    have hsnap1 : groupSnap { st with pendingEpisodic := [mkPending g now ep e] } g =
        groupSnap st g := rfl
    have hp1 : dupInPending g e [mkPending g now ep e] = true :=
      dupInPending_self g now ep e he
    have hloop2 := ingestEpisodesLoop_single_reject g now (groupSnap st g)
      [mkPending g now ep e] ep e (Or.inl hp1)
    have hlen2 : (ingestEpisodesLoop g now
        (groupSnap { st with pendingEpisodic := [mkPending g now ep e] } g)
        ({ st with pendingEpisodic := [mkPending g now ep e] } :
          WMState).pendingEpisodic [(ep, e)]).length < mpw := by
      rw [hsnap1, hq1, hloop2]
      simpa using hm
    have h2 : ingest mpw { st with pendingEpisodic := [mkPending g now ep e] } g
        (singleResult ep) [e] true now none =
        { st with pendingEpisodic := [mkPending g now ep e] } := by
      rw [ingest_single_pending mpw
        { st with pendingEpisodic := [mkPending g now ep e] } g ep e now none hlen2]
      rw [show groupSnap { st with pendingEpisodic := [mkPending g now ep e] } g =
        groupSnap st g from rfl]
      rw [show ({ st with pendingEpisodic := [mkPending g now ep e] } :
        WMState).pendingEpisodic = [mkPending g now ep e] from rfl]
      rw [hloop2]
    rw [h2]
    unfold flush
    rw [if_neg (by simp)]
    simp [hr, mkRows]

/-- Empty Working Memory state over empty store collections. -/
def emptyWM : WMState :=
  { pendingEpisodic := []
    pendingRelUpdates := []
    sessionVibes := []
    episodicDb := []
    relationalDb := []
    nextEpId := 0
    nextRelId := 0 }

/-- Concrete fresh candidate episode used by the C1 witness. -/
def c1wEp : ExtractionEpisode :=
  { summary := "s"
    tags := []
    participants := []
    emotionalValence := 0
    emotionalIntensity := 0
    mioInvolvement := .observer
    importance := 1/2 }

/-- Witness for C1 at a concrete input: ingesting one fresh candidate with
embedding [1] twice into an empty buffer and flushing yields exactly one
durable row. -/
theorem C1_amended_witness :
    (flush (ingest 20 (ingest 20 emptyWM "g1" (singleResult c1wEp) [[1]] true 0 none)
        "g1" (singleResult c1wEp) [[1]] true 0 none) none 1).episodicDb.length = 1 := by
  have h := (C1_amended 20 emptyWM "g1" c1wEp [1] 0 1 none).2.2
    (by simp [sumSq]) rfl rfl rfl (by norm_num)
  simpa [emptyWM] using h

/-- Pending candidate already buffered for community g1, with embedding
[1, 0]. -/
def c1p : PendingEpisodic :=
  { groupId := "g1"
    summary := "p"
    participants := []
    tags := []
    embedding := [1, 0]
    importance := 1/2
    emotionalValence := 0
    emotionalIntensity := 0
    mioInvolvement := .observer
    eventTime := 0 }

/-- Working Memory state holding only c1p. -/
def c1St : WMState :=
  { pendingEpisodic := [c1p]
    pendingRelUpdates := []
    sessionVibes := []
    episodicDb := []
    relationalDb := []
    nextEpId := 0
    nextRelId := 0 }

/-- Candidate whose embedding has cosine similarity exactly 0.9 against
c1p. -/
def c1ep : ExtractionEpisode :=
  { summary := "q"
    tags := []
    participants := []
    emotionalValence := 0
    emotionalIntensity := 0
    mioInvolvement := .observer
    importance := 1/2 }

theorem c1_cos_eq : cosineSimilarity [9, Real.sqrt 19] [1, 0] = 9 / 10 := by
  unfold cosineSimilarity
  have h19 : Real.sqrt 19 * Real.sqrt 19 = 19 := Real.mul_self_sqrt (by norm_num)
  have hA : sumSq [9, Real.sqrt 19] = 100 := by
    simp [sumSq, h19]
    norm_num
  have hB : sumSq [(1 : ℝ), 0] = 1 := by
    norm_num [sumSq]
  have hsA : Real.sqrt (100 : ℝ) = 10 := by
    rw [show (100 : ℝ) = 10 ^ 2 by norm_num]
    exact Real.sqrt_sq (by norm_num)
  have hdot : dotProd [9, Real.sqrt 19] [(1 : ℝ), 0] = 9 := by
    simp [dotProd]
  rw [if_neg (by simp)]
  simp only [hA, hB, hsA, Real.sqrt_one, hdot]
  norm_num

/-- C1 counterexample: the claim says a candidate at cosine similarity at
least 0.9 against a pending candidate of the same community is rejected; the
code compares with strictly-greater-than, so a candidate at similarity
exactly 0.9 is accepted and the pending queue grows from one entry to
two. -/
theorem C1_counterexample :
    (0.9 : ℝ) ≤ cosineSimilarity [9, Real.sqrt 19] c1p.embedding ∧
    (ingest 20 c1St "g1" (singleResult c1ep) [[9, Real.sqrt 19]] true 5
        none).pendingEpisodic.length = 2 := by
  have hcos : cosineSimilarity [9, Real.sqrt 19] c1p.embedding = 9 / 10 := by
    rw [show c1p.embedding = [1, 0] from rfl]
    exact c1_cos_eq
  refine ⟨by rw [hcos]; norm_num, ?_⟩
  have hp : dupInPending "g1" [9, Real.sqrt 19] c1St.pendingEpisodic = false := by
    unfold dupInPending c1St
    simp [hcos, decide_eq_true_eq]
    norm_num
  have hd : dupInDb [9, Real.sqrt 19] (groupSnap c1St "g1") = false := by
    rfl
  have hloop := ingestEpisodesLoop_single_accept "g1" 5 (groupSnap c1St "g1")
    c1St.pendingEpisodic c1ep [9, Real.sqrt 19] hp hd
  have h := ingest_single_pending 20 c1St "g1" c1ep [9, Real.sqrt 19] 5 none
    (by rw [hloop]; simp [c1St])
  rw [h]
  show (ingestEpisodesLoop "g1" 5 (groupSnap c1St "g1") c1St.pendingEpisodic
    [(c1ep, [9, Real.sqrt 19])]).length = 2
  rw [hloop]
  simp [c1St]

/-! ## C4: cleanup retention score (DistillationPipeline.cleanup, retention
variant) -/

/-- Shallow embedding of the retention score computed by the cleanup pass:
importance times an exponential recency decay with 14-day half-life, plus an
access bonus of 0.05 per access capped at 0.3; rows already distilled are
discounted by 0.6 because their information is backed up in semantic
facts. -/
noncomputable def retentionScore (now : ℚ) (ep : EpisodicRow) : ℝ :=
  let daysSince : ℝ := (((now - ep.eventTime : ℚ) : ℝ)) / 86400000
  let recency : ℝ := (0.5 : ℝ) ^ (daysSince / 14)
  let accessBonus : ℝ := min ((ep.accessCount : ℝ) * 0.05) 0.3
  let retention : ℝ := (ep.importance : ℝ) * recency + accessBonus
  if ep.distilled then retention * 0.6 else retention

/-- Archival decision of the cleanup pass: a row is archived when its
retention score drops below 0.1. -/
noncomputable def cleanupArchivesRow (now : ℚ) (ep : EpisodicRow) : Prop :=
  retentionScore now ep < 0.1

/-- Episodic row fourteen days old at the counterexample instant, not
distilled. -/
def c4Old : EpisodicRow :=
  { id := 0
    groupId := "g"
    summary := "old"
    participants := []
    tags := []
    embedding := [1]
    importance := 1
    emotionalValence := 0
    emotionalIntensity := 0
    mioInvolvement := .observer
    accessCount := 6
    lastAccessed := 0
    eventTime := 0
    archived := false
    distilled := false
    distilledAt := 0
    createdAt := 0 }

/-- Episodic row with the same importance and access count, event time at
the counterexample instant, already distilled. -/
def c4New : EpisodicRow :=
  { c4Old with
    id := 1
    summary := "new"
    eventTime := 14 * 86400000
    distilled := true }

theorem c4_rpow_one :
    ((((14 * 86400000 : ℚ) - 0 : ℚ) : ℝ)) / 86400000 / 14 = 1 := by
  push_cast
  norm_num

/-- C4 counterexample: the cleanup retention score also multiplies distilled
rows by 0.6, which the claim does not account for.  Two rows with equal
importance 1 and equal access count 6, evaluated at the same instant, where
the older row is not distilled and the newer one is: the older row scores
0.8 and the newer one 0.78, so the older row receives the strictly larger
retention score, refuting the claim as stated. -/
theorem C4_counterexample :
    c4Old.importance = c4New.importance ∧
    c4Old.accessCount = c4New.accessCount ∧
    c4Old.eventTime ≤ c4New.eventTime ∧
    retentionScore (14 * 86400000) c4New < retentionScore (14 * 86400000) c4Old := by
  refine ⟨rfl, rfl, by norm_num [c4Old, c4New], ?_⟩
  have hOld : retentionScore (14 * 86400000) c4Old = 0.8 := by
    unfold retentionScore
    rw [show c4Old.eventTime = 0 from rfl, show c4Old.distilled = false from rfl]
    simp only [Bool.false_eq_true, if_false]
    rw [show ((((14 * 86400000 : ℚ) - 0 : ℚ) : ℝ)) / 86400000 / 14 = 1 from c4_rpow_one]
    rw [Real.rpow_one]
    norm_num [c4Old]
  have hNew : retentionScore (14 * 86400000) c4New = 0.78 := by
    unfold retentionScore
    rw [show c4New.eventTime = (14 * 86400000 : ℚ) from rfl,
      show c4New.distilled = true from rfl]
    simp only [if_true]
    rw [show ((((14 * 86400000 : ℚ) - (14 * 86400000 : ℚ) : ℚ) : ℝ)) / 86400000 / 14
      = 0 by push_cast; norm_num]
    rw [Real.rpow_zero]
    norm_num [c4New, c4Old]
  rw [hOld, hNew]
  norm_num

/-- C4 amended: for two episodic rows with equal nonnegative importance,
equal access count and equal distilled flag, evaluated at the same cleanup
instant, the row with the older event time receives a retention score less
than or equal to that of the newer row. -/
theorem C4_amended (now : ℚ) (r1 r2 : EpisodicRow)
    (himp : r1.importance = r2.importance) (hpos : 0 ≤ r1.importance)
    (hacc : r1.accessCount = r2.accessCount) (hdist : r1.distilled = r2.distilled)
    (ht : r1.eventTime ≤ r2.eventTime) :
    retentionScore now r1 ≤ retentionScore now r2 := by
  unfold retentionScore
  have hbase : (0 : ℝ) < 0.5 := by norm_num
  have hbase1 : (0.5 : ℝ) ≤ 1 := by norm_num
  have hexp : (((now - r2.eventTime : ℚ) : ℝ)) / 86400000 / 14 ≤
      (((now - r1.eventTime : ℚ) : ℝ)) / 86400000 / 14 := by
    have : ((now - r2.eventTime : ℚ) : ℝ) ≤ ((now - r1.eventTime : ℚ) : ℝ) := by
      have : (now - r2.eventTime : ℚ) ≤ (now - r1.eventTime : ℚ) := by linarith
      exact_mod_cast this
    linarith
  have hrec : (0.5 : ℝ) ^ ((((now - r1.eventTime : ℚ) : ℝ)) / 86400000 / 14) ≤
      (0.5 : ℝ) ^ ((((now - r2.eventTime : ℚ) : ℝ)) / 86400000 / 14) :=
    Real.rpow_le_rpow_of_exponent_ge hbase hbase1 hexp
  have himpR : (0 : ℝ) ≤ (r1.importance : ℝ) := by exact_mod_cast hpos
  have hmul : (r1.importance : ℝ) *
      (0.5 : ℝ) ^ ((((now - r1.eventTime : ℚ) : ℝ)) / 86400000 / 14) ≤
      (r2.importance : ℝ) *
      (0.5 : ℝ) ^ ((((now - r2.eventTime : ℚ) : ℝ)) / 86400000 / 14) := by
    rw [← himp]
    exact mul_le_mul_of_nonneg_left hrec himpR
  rw [hacc, hdist]
  cases r2.distilled with
  | false =>
      simp only [Bool.false_eq_true, if_false]
      linarith
  | true =>
      simp only [if_true]
      nlinarith

/-- Witness for C4 at concrete rows: the fourteen-day-old row scores no more
than an otherwise identical row dated at the evaluation instant when both
are not distilled. -/
theorem C4_amended_witness :
    retentionScore (14 * 86400000) c4Old ≤
      retentionScore (14 * 86400000) { c4Old with eventTime := 14 * 86400000 } := by
  exact C4_amended (14 * 86400000) c4Old { c4Old with eventTime := 14 * 86400000 }
    rfl (by norm_num [c4Old]) rfl rfl (by norm_num [c4Old])


/-! ## Semantic fact rows (mio.semantic, src/memory/tables.ts) -/

/-- Durable semantic fact row. -/
structure SemanticRow where
  id : ℕ
  groupId : String
  subject : String
  factType : String
  content : String
  embedding : List ℝ
  confidence : ℚ
  sourceEpisodes : List ℕ
  firstObserved : ℚ
  lastConfirmed : ℚ
  supersededBy : Option ℕ
  createdAt : ℚ

/-! ## C8: distillation cycle and the closeness tier -/

/-- Truncation of a string to its first n characters, modelling the
JavaScript slice(0, n) applied to impression texts (the astral-plane
difference between code units and characters does not matter to any
claim). -/
def takeChars (n : ℕ) (s : String) : String :=
  ⟨s.data.take n⟩

/-- Shallow embedding of DistillationPipeline.updateRecentImpression (the
semantic-facts variant): when the user has active facts confirmed in the
last seven days and the model response parses, the recent impression text
and its timestamp are rewritten; recentResp is the parsed recent_impression
field, none modelling an unparseable response. -/
def updateRecentImpressionRel (g : String) (semDb : List SemanticRow) (now : ℚ)
    (recentResp : Option String) (rel : RelationalRow) : RelationalRow :=
  let sevenDaysAgo := now - 7 * 86400000
  let recentFacts := (semDb.filter (fun f => f.groupId == g && f.subject == rel.userId)).filter
    (fun f => f.supersededBy == none && decide (sevenDaysAgo ≤ f.lastConfirmed))
  if recentFacts.isEmpty then rel
  else
    match recentResp with
    | none => rel
    | some s =>
        { rel with
          recentImpression := takeChars 60 s
          recentImpressionUpdatedAt := now }

/-- Shallow embedding of DistillationPipeline.updateCoreImpression: at least
three active facts are required, the rewrite is throttled to new users or
core impressions older than 30 days, and an unchanged or empty model answer
leaves the row untouched.  coreResp is the parsed pair of the unchanged flag
and the new_impression field. -/
def updateCoreImpressionRel (g : String) (semDb : List SemanticRow) (now : ℚ)
    (coreResp : Option (Bool × String)) (rel : RelationalRow) : RelationalRow :=
  let activeFacts := (((semDb.filter (fun f => f.groupId == g && f.subject == rel.userId)).filter
    (fun f => f.supersededBy == none)).mergeSort
      (fun a b => decide (b.confidence ≤ a.confidence))).take 15
  let isNewUser := rel.coreImpression == ""
  let coreImpressionAge := (now - rel.coreImpressionUpdatedAt) / 86400000
  if activeFacts.length < 3 then rel
  else if !isNewUser && decide (coreImpressionAge ≤ 30) then rel
  else
    match coreResp with
    | none => rel
    | some resp =>
        if resp.1 then rel
        else if takeChars 80 resp.2 == "" then rel
        else
          { rel with
            coreImpression := takeChars 80 resp.2
            coreImpressionUpdatedAt := now }

/-- Effect of one DistillationPipeline.runForGroup cycle on one relational
row.  The impression loop skips users whose last interaction is older than
seven days; the other stages of the cycle (embedding backfill, semantic
maintenance, cleanup) read and write only the episodic and semantic
collections and never touch relational rows, so this function is the whole
per-cycle effect on a relational row. -/
def distillCycleRel (g : String) (semDb : List SemanticRow) (now : ℚ)
    (recentResp : Option String) (coreResp : Option (Bool × String))
    (rel : RelationalRow) : RelationalRow :=
  if decide (rel.lastInteraction < now - 7 * 86400000) then rel
  else updateCoreImpressionRel g semDb now coreResp
    (updateRecentImpressionRel g semDb now recentResp rel)

theorem updateRecentImpressionRel_tier (g : String) (semDb : List SemanticRow)
    (now : ℚ) (r : Option String) (rel : RelationalRow) :
    (updateRecentImpressionRel g semDb now r rel).closenessTier =
      rel.closenessTier := by
  unfold updateRecentImpressionRel
  cases r with
  | none => simp [apply_ite RelationalRow.closenessTier]
  | some s => simp [apply_ite RelationalRow.closenessTier]

theorem updateCoreImpressionRel_tier (g : String) (semDb : List SemanticRow)
    (now : ℚ) (c : Option (Bool × String)) (rel : RelationalRow) :
    (updateCoreImpressionRel g semDb now c rel).closenessTier =
      rel.closenessTier := by
  unfold updateCoreImpressionRel
  cases c with
  | none => simp [apply_ite RelationalRow.closenessTier]
  | some resp => simp [apply_ite RelationalRow.closenessTier]

theorem distillCycleRel_tier (g : String) (semDb : List SemanticRow) (now : ℚ)
    (r : Option String) (c : Option (Bool × String)) (rel : RelationalRow) :
    (distillCycleRel g semDb now r c rel).closenessTier = rel.closenessTier := by
  unfold distillCycleRel
  split
  · rfl
  · rw [updateCoreImpressionRel_tier, updateRecentImpressionRel_tier]

/-- Relational record of the C8 scenario: interaction count 60, last
interaction 45 days before the cycle instant, tier close. -/
def c8Rel : RelationalRow :=
  { id := 0
    groupId := "g"
    userId := "u"
    displayName := "n"
    coreImpression := "c"
    coreImpressionUpdatedAt := 0
    recentImpression := ""
    recentImpressionUpdatedAt := 0
    closenessTier := .close
    interactionCount := 60
    recentInteractionCount := 5
    lastInteraction := 0
    significantEvents := []
    knownNames := "[]"
    preferredName := none
    createdAt := 0
    updatedAt := 0 }

/-- C8 counterexample: running one distillation cycle on the scenario record
(interactionCount 60, lastInteraction 45 days ago, tier close) leaves the
tier at close, not familiar: no stage of the distillation pipeline writes
the closeness tier, so the claimed downgrade does not happen during the
cycle. -/
theorem C8_counterexample :
    (distillCycleRel "g" [] (45 * 86400000) (some "x") (some (false, "y"))
        c8Rel).closenessTier = .close ∧
    ClosenessTier.close ≠ .familiar := by
  constructor
  · rw [distillCycleRel_tier]
    rfl
  · simp

/-- C8 amended: a distillation cycle never changes any closeness tier; the
scenario downgrade happens at the next interaction update instead, where
both implementations of computeClosenessTier take the record from close to
familiar (one step, not to stranger) because more than 30 days have passed
since the last interaction. -/
theorem C8_amended :
    (∀ (g : String) (semDb : List SemanticRow) (now : ℚ) (r : Option String)
      (c : Option (Bool × String)) (rel : RelationalRow),
      (distillCycleRel g semDb now r c rel).closenessTier = rel.closenessTier) ∧
    computeClosenessTier (c8Rel.interactionCount + 1)
      (c8Rel.recentInteractionCount + 1) c8Rel.lastInteraction (45 * 86400000)
      (some c8Rel.closenessTier) = .familiar ∧
    computeClosenessTierPL (c8Rel.interactionCount + 1) c8Rel.lastInteraction
      (45 * 86400000) c8Rel.closenessTier = .familiar ∧
    ClosenessTier.familiar ≠ .stranger := by
  refine ⟨distillCycleRel_tier, ?_, ?_, by simp⟩
  · unfold computeClosenessTier
    rw [show c8Rel.lastInteraction = 0 from rfl,
      show c8Rel.closenessTier = ClosenessTier.close from rfl]
    norm_num [downgradeMap]
  · unfold computeClosenessTierPL
    rw [show c8Rel.lastInteraction = 0 from rfl,
      show c8Rel.closenessTier = ClosenessTier.close from rfl]
    norm_num [downgradeMap]


/-! ## C5: supersession chain integrity -/

/-- Semantic store: the mio.semantic collection plus its auto-increment
counter. -/
structure SemStore where
  facts : List SemanticRow
  nextId : ℕ

/-- Creation of a new semantic fact (new facts of the distillation pass and
of the person and cultural direct writers): the row receives the next
auto-increment id and a null superseding reference; the other fields come
from the caller. -/
def semCreate (s : SemStore) (d : SemanticRow) : SemStore :=
  { facts := s.facts ++ [{ d with id := s.nextId, supersededBy := none }]
    nextId := s.nextId + 1 }

/-- Confidence refresh of an existing fact by id (confirmed facts and
near-duplicate confidence bumps): confidence and lastConfirmed change,
nothing else. -/
def semSetConfidence (s : SemStore) (i : ℕ) (c : ℚ) (t : ℚ) : SemStore :=
  { s with facts := s.facts.map (fun f =>
      if f.id == i then { f with confidence := c, lastConfirmed := t } else f) }

/-- Confidence decay of an existing fact by id (decayed facts): only the
confidence changes. -/
def semDecayConfidence (s : SemStore) (i : ℕ) (c : ℚ) : SemStore :=
  { s with facts := s.facts.map (fun f =>
      if f.id == i then { f with confidence := c } else f) }

/-- Evolution of a fact: a new row is created with the next auto-increment
id and a null superseding reference, then the old row has supersededBy set
to the new id. -/
def semEvolve (s : SemStore) (oldId : ℕ) (d : SemanticRow) : SemStore :=
  { facts := (s.facts.map (fun f =>
      if f.id == oldId then { f with supersededBy := some s.nextId } else f)) ++
      [{ d with id := s.nextId, supersededBy := none }]
    nextId := s.nextId + 1 }

/-- States of the semantic store reachable by the pipeline operations
(creation, confirmation, evolution, decay, dedup bump) from the empty
collection. -/
inductive SemReach : SemStore → Prop where
  | init : SemReach { facts := [], nextId := 0 }
  | create (s : SemStore) (d : SemanticRow) : SemReach s → SemReach (semCreate s d)
  | setConf (s : SemStore) (i : ℕ) (c t : ℚ) : SemReach s →
      SemReach (semSetConfidence s i c t)
  | decay (s : SemStore) (i : ℕ) (c : ℚ) : SemReach s →
      SemReach (semDecayConfidence s i c)
  | evolve (s : SemStore) (oldId : ℕ) (d : SemanticRow) : SemReach s →
      (∃ f ∈ s.facts, f.id = oldId) → SemReach (semEvolve s oldId d)

/-- Well-formedness of the semantic store: every id is below the counter,
and every superseding reference points forward to a strictly larger id that
exists in the store. -/
def semWF (s : SemStore) : Prop :=
  ∀ f ∈ s.facts, f.id < s.nextId ∧
    ∀ t, f.supersededBy = some t → f.id < t ∧ t < s.nextId ∧ ∃ g ∈ s.facts, g.id = t

theorem semWF_init : semWF { facts := [], nextId := 0 } := by
  intro f hf
  simp at hf

theorem semWF_create (s : SemStore) (d : SemanticRow) (h : semWF s) :
    semWF (semCreate s d) := by
  intro f hf
  unfold semCreate at hf
  simp only [List.mem_append, List.mem_singleton] at hf
  rcases hf with hf | hf
  · obtain ⟨h1, h2⟩ := h f hf
    refine ⟨Nat.lt_succ_of_lt h1, fun t ht => ?_⟩
    obtain ⟨ha, hb, g, hg, hgid⟩ := h2 t ht
    exact ⟨ha, Nat.lt_succ_of_lt hb, g, by simp [semCreate, hg], hgid⟩
  · subst hf
    refine ⟨Nat.lt_succ_self _, fun t ht => ?_⟩
    simp at ht
  
theorem semWF_mapConf (s : SemStore) (upd : SemanticRow → SemanticRow)
    (hid : ∀ f, (upd f).id = f.id)
    (hsup : ∀ f, (upd f).supersededBy = f.supersededBy)
    (h : semWF s) :
    semWF { s with facts := s.facts.map (fun f => if f.id == i then upd f else f) } := by
  intro f hf
  simp only [List.mem_map] at hf
  obtain ⟨f0, hf0, rfl⟩ := hf
  obtain ⟨h1, h2⟩ := h f0 hf0
  by_cases hc : (f0.id == i) = true
  · simp only [hc, if_true]
    refine ⟨by rw [hid]; exact h1, fun t ht => ?_⟩
    rw [hsup] at ht
    obtain ⟨ha, hb, g, hg, hgid⟩ := h2 t ht
    refine ⟨by rw [hid]; exact ha, hb, ?_⟩
    by_cases hgc : (g.id == i) = true
    · exact ⟨upd g, by simp only [List.mem_map]; exact ⟨g, hg, by rw [if_pos hgc]⟩,
        by rw [hid]; exact hgid⟩
    · exact ⟨g, by simp only [List.mem_map]; exact ⟨g, hg, by rw [if_neg hgc]⟩, hgid⟩
  · simp only [hc, if_false]
    refine ⟨h1, fun t ht => ?_⟩
    have ht0 : f0.supersededBy = some t := by
      simpa [hc] using ht
    obtain ⟨ha, hb, g, hg, hgid⟩ := h2 t ht0
    refine ⟨ha, hb, ?_⟩
    by_cases hgc : (g.id == i) = true
    · exact ⟨upd g, by simp only [List.mem_map]; exact ⟨g, hg, by rw [if_pos hgc]⟩,
        by rw [hid]; exact hgid⟩
    · exact ⟨g, by simp only [List.mem_map]; exact ⟨g, hg, by rw [if_neg hgc]⟩, hgid⟩

theorem semWF_evolve (s : SemStore) (oldId : ℕ) (d : SemanticRow)
    (h : semWF s) : semWF (semEvolve s oldId d) := by
  intro f hf
  unfold semEvolve at hf
  simp only [List.mem_append, List.mem_map, List.mem_singleton] at hf
  rcases hf with ⟨f0, hf0, rfl⟩ | hf
  · obtain ⟨h1, h2⟩ := h f0 hf0
    by_cases hc : (f0.id == oldId) = true
    · simp only [hc, if_true]
      refine ⟨Nat.lt_succ_of_lt h1, fun t ht => ?_⟩
      simp only at ht
      obtain rfl : s.nextId = t := by simpa using ht
      refine ⟨h1, Nat.lt_succ_self _, ?_⟩
      refine ⟨{ d with id := s.nextId, supersededBy := none }, ?_, rfl⟩
      simp [semEvolve]
    · simp only [hc, if_false]
      refine ⟨Nat.lt_succ_of_lt h1, fun t ht => ?_⟩
      have ht0 : f0.supersededBy = some t := by
        simpa [hc] using ht
      obtain ⟨ha, hb, g, hg, hgid⟩ := h2 t ht0
      refine ⟨ha, Nat.lt_succ_of_lt hb, ?_⟩
      by_cases hgc : (g.id == oldId) = true
      · refine ⟨{ g with supersededBy := some s.nextId }, ?_, hgid⟩
        unfold semEvolve
        simp only [List.mem_append, List.mem_map]
        exact Or.inl ⟨g, hg, by rw [if_pos hgc]⟩
      · refine ⟨g, ?_, hgid⟩
        unfold semEvolve
        simp only [List.mem_append, List.mem_map]
        exact Or.inl ⟨g, hg, by rw [if_neg hgc]⟩
  · subst hf
    refine ⟨Nat.lt_succ_self _, fun t ht => ?_⟩
    simp at ht

/-- Every reachable semantic store is well formed. -/
theorem semReach_wf (s : SemStore) (h : SemReach s) : semWF s := by
  induction h with
  | init => exact semWF_init
  | create s d _ ih => exact semWF_create s d ih
  | setConf s i c t _ ih =>
      exact semWF_mapConf s (fun f => { f with confidence := c, lastConfirmed := t })
        (fun f => rfl) (fun f => rfl) ih
  | decay s i c _ ih =>
      exact semWF_mapConf s (fun f => { f with confidence := c })
        (fun f => rfl) (fun f => rfl) ih
  | evolve s oldId d _ _ ih => exact semWF_evolve s oldId d ih

/-- First fact of the store carrying the requested id, modelling a read of
the row with that primary key. -/
def findFact (facts : List SemanticRow) (i : ℕ) : Option SemanticRow :=
  facts.find? (fun f => f.id == i)

/-- Chain chase: follow supersededBy references for at most fuel steps,
returning the first fact reached whose reference is null. -/
def chase (facts : List SemanticRow) : ℕ → ℕ → Option SemanticRow
  | 0, _ => none
  | fuel + 1, i =>
      match findFact facts i with
      | none => none
      | some f =>
          match f.supersededBy with
          | none => some f
          | some t => chase facts fuel t

theorem chase_terminates (s : SemStore) (hwf : semWF s) :
    ∀ (fuel i : ℕ) (f : SemanticRow), findFact s.facts i = some f →
      s.nextId - f.id < fuel →
      ∃ g ∈ s.facts, chase s.facts fuel i = some g ∧ g.supersededBy = none := by
  intro fuel
  induction fuel with
  | zero => intro i f hfind hlt; omega
  | succ n ih =>
      intro i f hfind hlt
      have hmem : f ∈ s.facts := List.mem_of_find?_eq_some hfind
      obtain ⟨hid, hsup⟩ := hwf f hmem
      cases hsb : f.supersededBy with
      | none =>
          refine ⟨f, hmem, ?_, hsb⟩
          unfold chase
          rw [hfind]
          simp [hsb]
      | some t =>
          obtain ⟨hft, htn, g, hg, hgid⟩ := hsup t hsb
          have hfindt : ∃ f2, findFact s.facts t = some f2 := by
            have : (s.facts.find? (fun f => f.id == t)).isSome := by
              rw [List.find?_isSome]
              exact ⟨g, hg, by simp [hgid]⟩
            exact Option.isSome_iff_exists.mp this
          obtain ⟨f2, hf2⟩ := hfindt
          have hf2id : f2.id = t := by
            have := List.find?_some hf2
            simpa using this
          have hrec : s.nextId - f2.id < n := by
            rw [hf2id]
            omega
          obtain ⟨g2, hg2, hchase, hnull⟩ := ih t f2 hf2 hrec
          refine ⟨g2, hg2, ?_, hnull⟩
          unfold chase
          rw [hfind]
          simp only [hsb]
          exact hchase

/-- C5: in every state of the semantic store reachable by the pipeline
operations (creation, confirmation, evolution, decay, dedup bump), each
superseding reference points to a strictly newer fact, so following
supersededBy from any fact never cycles, and within at most nextId steps the
chain terminates at a fact whose supersededBy reference is null. -/
theorem C5_supersession_chain (s : SemStore) (hs : SemReach s)
    (f : SemanticRow) (hf : f ∈ s.facts) :
    (∀ t, f.supersededBy = some t → f.id < t) ∧
    ∃ g ∈ s.facts, chase s.facts (s.nextId + 1) f.id = some g ∧
      g.supersededBy = none := by
  have hwf := semReach_wf s hs
  constructor
  · intro t ht
    exact ((hwf f hf).2 t ht).1
  · have hfind : ∃ f2, findFact s.facts f.id = some f2 := by
      have : (s.facts.find? (fun f2 => f2.id == f.id)).isSome := by
        rw [List.find?_isSome]
        exact ⟨f, hf, by simp⟩
      exact Option.isSome_iff_exists.mp this
    obtain ⟨f2, hf2⟩ := hfind
    have hf2id : f2.id = f.id := by
      have := List.find?_some hf2
      simpa using this
    exact chase_terminates s hwf (s.nextId + 1) f.id f2 hf2 (by omega)

/-- Template semantic row used by the C5 witness. -/
def c5d (content : String) : SemanticRow :=
  { id := 0
    groupId := "g"
    subject := "u"
    factType := "trait"
    content := content
    embedding := []
    confidence := 1/2
    sourceEpisodes := []
    firstObserved := 0
    lastConfirmed := 0
    supersededBy := none
    createdAt := 0 }

/-- Store after creating one fact and evolving it once. -/
def c5Store : SemStore :=
  semEvolve (semCreate { facts := [], nextId := 0 } (c5d "a")) 0 (c5d "b")

/-- Witness for C5 at a concrete reachable store: the evolved fact with id 0
points forward, and chasing from it terminates at a fact with a null
reference. -/
theorem C5_supersession_chain_witness :
    (∀ t, ({ c5d "a" with id := 0, supersededBy := some 1 } : SemanticRow).supersededBy =
        some t → 0 < t) ∧
    ∃ g ∈ c5Store.facts, chase c5Store.facts (c5Store.nextId + 1) 0 = some g ∧
      g.supersededBy = none := by
  have hreach : SemReach c5Store := by
    refine SemReach.evolve _ 0 (c5d "b") (SemReach.create _ (c5d "a") SemReach.init) ?_
    exact ⟨{ c5d "a" with id := 0, supersededBy := none }, by simp [semCreate], rfl⟩
  have hmem : ({ c5d "a" with id := 0, supersededBy := some 1 } : SemanticRow) ∈
      c5Store.facts := by
    simp [c5Store, semEvolve, semCreate, c5d]
  exact C5_supersession_chain c5Store hreach _ hmem


/-! ## C7: confidence writes (processCulturalObservations and the clamped
writers) -/

/-- Cultural observation types of the extraction output. -/
inductive CulturalType where
  | expression
  | reactionPattern
  | toolKnowledge
  | meme
deriving DecidableEq, Repr

/-- TYPE_TO_FACT_TYPE map of culture-learning. -/
def typeToFactType : CulturalType → String
  | .expression => "group_expression"
  | .reactionPattern => "reaction_pattern"
  | .toolKnowledge => "tool_knowledge"
  | .meme => "inside_joke"

/-- Cultural observation handed to processCulturalObservations. -/
structure CulturalObs where
  type : CulturalType
  content : String
  confidence : ℚ

/-- Clamp applied by every confidence write of the distillation pipeline
(new facts, confirmed facts, evolved facts, decayed facts), the embedding of
Math.max(0, Math.min(1, x)). -/
def distillConfClamp (x : ℚ) : ℚ :=
  max 0 (min 1 x)

/-- Confidence of a fresh person-observation fact, mapped from the
observation importance by processPersonObservations. -/
def personNewConfidence (importance : ℚ) : ℚ :=
  if 7/10 ≤ importance then 3/5
  else if 2/5 ≤ importance then 1/2
  else 2/5

/-- Confidence bump applied by the person and cultural direct writers on a
near-duplicate match: plus 0.1, capped at the writer maximum 0.8. -/
def directBumpConfidence (c : ℚ) : ℚ :=
  min (4/5) (c + 1/10)

/-- One step of the processCulturalObservations loop: the observation either
bumps the first active fact within cosine similarity 0.85 of its embedding
(both in the store and in the in-memory active list), or inserts a new
group-subject fact whose confidence is the observation confidence taken
as-is. -/
noncomputable def culturalStep (g : String) (now : ℚ)
    (acc : SemStore × List SemanticRow) (item : CulturalObs × List ℝ) :
    SemStore × List SemanticRow :=
  let st := acc.1
  let active := acc.2
  match active.find? (fun f =>
    !f.embedding.isEmpty && decide ((0.85 : ℝ) ≤ cosineSimilarity item.2 f.embedding)) with
  | some fact =>
      let newConf := directBumpConfidence fact.confidence
      ({ st with facts := st.facts.map (fun r =>
          if r.id == fact.id then { r with confidence := newConf, lastConfirmed := now }
          else r) },
       active.map (fun r => if r.id == fact.id then { r with confidence := newConf } else r))
  | none =>
      let newFact : SemanticRow :=
        { id := st.nextId
          groupId := g
          subject := "group"
          factType := typeToFactType item.1.type
          content := item.1.content
          embedding := item.2
          confidence := item.1.confidence
          sourceEpisodes := []
          firstObserved := now
          lastConfirmed := now
          supersededBy := none
          createdAt := now }
      ({ facts := st.facts ++ [newFact], nextId := st.nextId + 1 }, active)

/-- Shallow embedding of processCulturalObservations: load the group facts,
keep the non-superseded ones as the in-memory dedup list, then process the
observations in order with their batch embeddings.  embedOk = false models
the caught embedBatch failure, which leaves the store untouched. -/
noncomputable def processCulturalObservations (g : String) (st : SemStore)
    (observations : List CulturalObs) (embeds : List (List ℝ)) (embedOk : Bool)
    (now : ℚ) : SemStore :=
  if observations.isEmpty then st
  else if !embedOk then st
  else
    let existing := st.facts.filter (fun f => f.groupId == g && f.subject == "group")
    let active := existing.filter (fun f => f.supersededBy == none)
    ((observations.zip embeds).foldl (culturalStep g now) (st, active)).1

/-- Cultural observation carrying an out-of-range confidence. -/
def c7obs : CulturalObs :=
  { type := .meme
    content := "m"
    confidence := 3/2 }

/-- C7: the claim that every confidence write stores a value in the unit
interval is right about the distillation pipeline (whose four write paths
clamp to the unit interval), the person-observation writer (fixed values and
a 0.8-capped bump) and the bump path of the cultural writer, but the
new-fact path of processCulturalObservations stores the upstream confidence
without clamping: feeding an observation with confidence 1.5 into an empty
store creates a durable fact whose stored confidence is 1.5, outside the
unit interval, contradicting the documented 0..1 invariant. -/
theorem C7_confidence_unclamped :
    (∀ x : ℚ, 0 ≤ distillConfClamp x ∧ distillConfClamp x ≤ 1) ∧
    (∀ imp : ℚ, 0 ≤ personNewConfidence imp ∧ personNewConfidence imp ≤ 1) ∧
    (∀ c : ℚ, directBumpConfidence c ≤ 4/5) ∧
    ((processCulturalObservations "g" { facts := [], nextId := 0 } [c7obs] [[1]]
        true 0).facts.map (fun f => f.confidence)) = [3/2] ∧
    ¬ ((3/2 : ℚ) ≤ 1) := by
  refine ⟨?_, ?_, ?_, ?_, by norm_num⟩
  · intro x
    unfold distillConfClamp
    constructor
    · exact le_max_left 0 _
    · exact max_le (by norm_num) (min_le_left 1 x)
  · intro imp
    unfold personNewConfidence
    split_ifs <;> norm_num
  · intro c
    exact min_le_left _ _
  · unfold processCulturalObservations
    rw [if_neg (by simp)]
    rw [if_neg (by simp)]
    simp only [List.filter_nil, List.zip_cons_cons, List.zip_nil_right,
      List.foldl_cons, List.foldl_nil]
    unfold culturalStep
    simp [c7obs]


/-! ## C9: spam chunk filtering (src/memory/extraction.ts) -/

/-- Message as seen by the chunk heuristics: the bot flag and the rendered
content (renderer.renderContent output), as a list of characters. -/
structure ChatMsg where
  isBot : Bool
  content : List Char
deriving DecidableEq, Repr

/-- JavaScript string length of rendered content: UTF-16 code units, two per
astral-plane character. -/
def jsLen (cs : List Char) : ℕ :=
  (cs.map (fun c => if 0x10000 ≤ c.toNat then 2 else 1)).sum

/-- One character of the emoji range of the spam regex. -/
def isEmojiChar (c : Char) : Bool :=
  decide (0x1F300 ≤ c.toNat) && decide (c.toNat ≤ 0x1F9FF)

/-- Purely symbolic content: nonempty and made only of characters of the
emoji range, the test of the anchored emoji regex. -/
def pureEmoji (cs : List Char) : Bool :=
  !cs.isEmpty && cs.all isEmojiChar

/-- Near-empty message: rendered content of at most three UTF-16 units or
purely symbolic. -/
def nearEmpty (m : ChatMsg) : Bool :=
  decide (jsLen m.content ≤ 3) || pureEmoji m.content

/-- Whitespace stripped by the JavaScript trim call. -/
def isJsWhitespace (c : Char) : Bool :=
  [' ', '\t', '\n', '\r', '\x0B', '\x0C', '\u00A0', '\uFEFF'].contains c

/-- Trim of both ends, as String.prototype.trim. -/
def jsTrim (cs : List Char) : List Char :=
  ((cs.dropWhile isJsWhitespace).reverse.dropWhile isJsWhitespace).reverse

/-- Normalization applied before the duplicate count: trim then lowercase
(the ASCII case map; the code points relevant to the claims have no case). -/
def normalizeMsg (m : ChatMsg) : List Char :=
  (jsTrim m.content).map Char.toLower

/-- Largest multiplicity among the normalized contents of a chunk, the max
over the content-count map values. -/
def maxRepeat (chunk : List ChatMsg) : ℕ :=
  let norms := chunk.map normalizeMsg
  (norms.map (fun n => norms.count n)).foldl max 0

/-- Shallow embedding of isSpamChunk: chunks of fewer than five messages
are never spam; otherwise a chunk is spam when more than 60 percent of its
messages are near-empty, or when more than 70 percent share one normalized
content. -/
def isSpamChunk (chunk : List ChatMsg) : Bool :=
  if chunk.length < 5 then false
  else if (chunk.countP nearEmpty : ℚ) / (chunk.length : ℚ) > 0.6 then true
  else if (maxRepeat chunk : ℚ) / (chunk.length : ℚ) > 0.7 then true
  else false

/-- Topic keywords hard-coded by hasRelevantTopics. -/
def relevantKeywords : List String :=
  ["gal", "galgame", "视觉小说", "key", "clannad", "air", "kanon",
   "音乐", "歌", "ed", "op", "bgm",
   "动画", "番剧", "新番",
   "游戏", "steam"]

/-- Fuel-bounded count of non-overlapping occurrences of pat in text,
matching the global regex match count; the fuel equals the text length,
which bounds the number of advances for a nonempty pattern. -/
def countOccurAux (pat : List Char) : ℕ → List Char → ℕ
  | 0, _ => 0
  | _ + 1, [] => 0
  | fuel + 1, c :: rest =>
      if pat.isPrefixOf (c :: rest) then
        1 + countOccurAux pat fuel ((c :: rest).drop pat.length)
      else countOccurAux pat fuel rest

/-- Number of non-overlapping occurrences of pat in text. -/
def countOccur (pat text : List Char) : ℕ :=
  countOccurAux pat text.length text

/-- Shallow embedding of hasRelevantTopics: join the rendered contents with
spaces, lowercase, and require at least three keyword matches in total. -/
def hasRelevantTopics (chunk : List ChatMsg) : Bool :=
  let text := (List.intercalate [' '] (chunk.map (fun m => m.content))).map Char.toLower
  let matchCount := (relevantKeywords.map (fun kw => countOccur kw.data text)).sum
  decide (3 ≤ matchCount)

/-- Mention tag looked for by the second priority rule. -/
def atMioTag : List Char :=
  "<at id=\"mio\"/>".data

/-- Substring test: does the needle n occur inside the haystack, as the
JavaScript includes call. -/
def containsSeq (n : List Char) : List Char → Bool
  | [] => n.isEmpty
  | c :: t => n.isPrefixOf (c :: t) || containsSeq n t

/-- Shallow embedding of shouldExtractChunk.  r is the Math.random draw of
the sampling branch; spam chunks are dropped before any other rule. -/
def shouldExtractChunk (chunk : List ChatMsg) (r : ℚ) : Bool :=
  if isSpamChunk chunk then false
  else if chunk.any (fun m => m.isBot) then true
  else if chunk.any (fun m => containsSeq atMioTag m.content) then true
  else if hasRelevantTopics chunk then true
  else decide (r < 0.33)

/-- Chunk of three identical single-character messages. -/
def c9Small : List ChatMsg :=
  List.replicate 3 { isBot := false, content := "草".data }

/-- C9 counterexample: the claim says isSpamChunk returns true for every
chunk in which more than 60 percent of messages are near-empty or more than
70 percent are near-duplicates; a chunk of three identical single-character
messages satisfies both fractions (100 percent) yet isSpamChunk returns
false, because chunks of fewer than five messages are never classified as
spam. -/
theorem C9_counterexample :
    (c9Small.countP nearEmpty : ℚ) / (c9Small.length : ℚ) > 0.6 ∧
    (maxRepeat c9Small : ℚ) / (c9Small.length : ℚ) > 0.7 ∧
    isSpamChunk c9Small = false := by
  have hcount : c9Small.countP nearEmpty = 3 := by decide
  have hlen : c9Small.length = 3 := by decide
  have hrep : maxRepeat c9Small = 3 := by decide
  refine ⟨?_, ?_, ?_⟩
  · rw [hcount, hlen]
    norm_num
  · rw [hrep, hlen]
    norm_num
  · unfold isSpamChunk
    rw [hlen]
    norm_num

/-- C9 amended: for chunks of at least five messages, isSpamChunk returns
true whenever more than 60 percent of the messages are near-empty or more
than 70 percent share one normalized content, and a spam chunk is never
selected for extraction by shouldExtractChunk, whatever the sampling
draw. -/
theorem C9_amended (chunk : List ChatMsg) (r : ℚ) (h5 : 5 ≤ chunk.length) :
    (((chunk.countP nearEmpty : ℚ) / (chunk.length : ℚ) > 0.6 ∨
      (maxRepeat chunk : ℚ) / (chunk.length : ℚ) > 0.7) →
      isSpamChunk chunk = true) ∧
    (isSpamChunk chunk = true → shouldExtractChunk chunk r = false) := by
  constructor
  · intro h
    unfold isSpamChunk
    rw [if_neg (Nat.not_lt.mpr h5)]
    rcases h with h | h
    · rw [if_pos h]
    · by_cases h1 : (chunk.countP nearEmpty : ℚ) / (chunk.length : ℚ) > 0.6
      · rw [if_pos h1]
      · rw [if_neg h1, if_pos h]
  · intro h
    unfold shouldExtractChunk
    rw [if_pos h]

/-- Ten-message chunk of the C9 scenario: eight messages are the single
character 草 and two are ordinary sentences. -/
def c9Chunk10 : List ChatMsg :=
  List.replicate 8 { isBot := false, content := "草".data } ++
    [{ isBot := false, content := "今晚一起打明日方舟吗".data },
     { isBot := false, content := "明天再说吧我还有作业没写".data }]

/-- Witness for C9 at the scenario chunk: eight of ten messages are the
single character 草, the chunk is classified as spam and is never selected
for extraction. -/
theorem C9_amended_witness :
    5 ≤ c9Chunk10.length ∧ isSpamChunk c9Chunk10 = true ∧
    shouldExtractChunk c9Chunk10 (1/2) = false := by
  have h5 : 5 ≤ c9Chunk10.length := by decide
  have h := C9_amended c9Chunk10 (1/2) h5
  have hcount : c9Chunk10.countP nearEmpty = 8 := by decide
  have hlen : c9Chunk10.length = 10 := by decide
  have hspam : isSpamChunk c9Chunk10 = true := by
    apply h.1
    left
    rw [hcount, hlen]
    norm_num
  exact ⟨h5, hspam, h.2 hspam⟩


/-! ## C2: episodic retrieval (src/memory/episodic.ts) -/

/-- Retrieval result record (RetrievedMemory). -/
structure RetrievedMemory where
  summary : String
  tags : List String
  eventTime : ℚ
  importance : ℚ
  mioInvolvement : Involvement
  score : ℝ

/-- Tag match test of the retriever: some tag, lowercased, occurs inside the
lowercased query text. -/
def tagMatches (queryLower : List Char) (tags : List String) : Bool :=
  tags.any (fun tag => containsSeq (tag.data.map Char.toLower) queryLower)

/-- Shallow embedding of the candidate scoring of EpisodicRetriever.retrieve:
embedding similarity weighted 0.5, an exponential time decay with 7-day
half-life weighted 0.2, raw importance weighted 0.1, and a 0.15 tag-match
boost weighted 0.2. -/
noncomputable def memScore (q : List ℝ) (queryLower : List Char)
    (embedding : List ℝ) (eventTime importance : ℚ) (tags : List String)
    (now : ℚ) : ℝ :=
  let similarity := cosineSimilarity q embedding
  let daysSince : ℝ := (((now - eventTime : ℚ) : ℝ)) / 86400000
  let timeDecay : ℝ := (0.5 : ℝ) ^ (daysSince / 7)
  let tagBoost : ℝ := if tagMatches queryLower tags then 0.15 else 0
  similarity * 0.5 + timeDecay * 0.2 + (importance : ℝ) * 0.1 + tagBoost * 0.2

/-- Candidate built from a durable episodic row. -/
noncomputable def candOfRow (q : List ℝ) (queryLower : List Char) (now : ℚ)
    (row : EpisodicRow) : RetrievedMemory :=
  { summary := row.summary
    tags := row.tags
    eventTime := row.eventTime
    importance := row.importance
    mioInvolvement := row.mioInvolvement
    score := memScore q queryLower row.embedding row.eventTime row.importance
      row.tags now }

/-- Candidate built from a pending Working Memory episode. -/
noncomputable def candOfPending (q : List ℝ) (queryLower : List Char) (now : ℚ)
    (p : PendingEpisodic) : RetrievedMemory :=
  { summary := p.summary
    tags := p.tags
    eventTime := p.eventTime
    importance := p.importance
    mioInvolvement := p.mioInvolvement
    score := memScore q queryLower p.embedding p.eventTime p.importance
      p.tags now }

/-- Time filter of the retriever: a memory is skipped when chatHistoryStart
is given and truthy (nonzero) and the event time is not earlier than it. -/
def skipByTime (excl : Option ℚ) (t : ℚ) : Bool :=
  match excl with
  | none => false
  | some x => !(x == 0) && decide (x ≤ t)

/-- Candidate list of the retriever: the non-archived durable rows of the
group and the pending Working Memory episodes of the group, each passed
through the time filter and the nonempty-embedding guard and scored. -/
noncomputable def retrieveCandidates (st : WMState) (g : String) (q : List ℝ)
    (queryLower : List Char) (excl : Option ℚ) (now : ℚ) :
    List RetrievedMemory :=
  (groupSnap st g).filterMap (fun row =>
    if skipByTime excl row.eventTime then none
    else if row.embedding.isEmpty then none
    else some (candOfRow q queryLower now row)) ++
  (st.pendingEpisodic.filter (fun p => p.groupId == g)).filterMap (fun p =>
    if skipByTime excl p.eventTime then none
    else if p.embedding.isEmpty then none
    else some (candOfPending q queryLower now p))

/-- Descending-score comparator of the final sort. -/
noncomputable def scoreDescB (a b : RetrievedMemory) : Bool :=
  decide (b.score ≤ a.score)

/-- Shallow embedding of EpisodicRetriever.retrieve: score the candidates,
sort by descending score (stably, as the JavaScript sort), and return the
first topK.  q is the query embedding returned by the embedding service;
participantIds is accepted and unused, as in the source. -/
noncomputable def retrieve (st : WMState) (g : String) (q : List ℝ)
    (recentText : String) (_participantIds : List String) (topK : ℕ)
    (excl : Option ℚ) (now : ℚ) : List RetrievedMemory :=
  let queryLower := recentText.data.map Char.toLower
  ((retrieveCandidates st g q queryLower excl now).mergeSort scoreDescB).take topK

theorem scoreDescB_trans (a b c : RetrievedMemory) :
    scoreDescB a b → scoreDescB b c → scoreDescB a c := by
  unfold scoreDescB
  simp only [decide_eq_true_eq]
  intro h1 h2
  linarith

theorem scoreDescB_total (a b : RetrievedMemory) :
    scoreDescB a b || scoreDescB b a := by
  unfold scoreDescB
  simp only [Bool.or_eq_true, decide_eq_true_eq]
  exact le_total b.score a.score

theorem skipByTime_false (excl : Option ℚ) (t : ℚ)
    (hx : ∀ x, excl = some x → 0 < x) (h : skipByTime excl t = false) :
    ∀ x, excl = some x → t < x := by
  intro x he
  subst he
  rw [show skipByTime (some x) t = (!(x == 0) && decide (x ≤ t)) from rfl] at h
  by_cases hz : x = 0
  · exact absurd (hx x rfl) (by rw [hz]; exact lt_irrefl 0)
  · have hbx : (x == 0) = false := beq_eq_false_iff_ne.mpr hz
    rw [hbx] at h
    simp only [Bool.not_false, Bool.true_and, decide_eq_false_iff_not, not_le] at h
    exact h

/-- C2: the retriever considers only non-archived durable episodes and
pending Working Memory episodes of the community whose event time is earlier
than excludeAfter when it is given (as a positive timestamp); every
candidate is scored as a weighted blend with similarity weight 0.5 (within
the claimed 0.5 to 0.6), decay weight 0.2 (within 0.2 to 0.3, 7-day
half-life) and importance weight 0.1, plus a strictly positive boost of
0.15 times 0.2 on a tag match, so a candidate carrying a tag contained in
the query text scores strictly higher than an otherwise-identical candidate
lacking it; and the result is the top-K of the candidates by descending
score. -/
theorem C2_retrieve (st : WMState) (g : String) (q : List ℝ) (text : String)
    (pids : List String) (topK : ℕ) (excl : Option ℚ) (now : ℚ)
    (hx : ∀ x, excl = some x → 0 < x) :
    (∀ m ∈ retrieve st g q text pids topK excl now,
      (∃ row ∈ st.episodicDb, row.groupId = g ∧ row.archived = false ∧
        (∀ x, excl = some x → row.eventTime < x) ∧
        m = candOfRow q (text.data.map Char.toLower) now row) ∨
      (∃ p ∈ st.pendingEpisodic, p.groupId = g ∧
        (∀ x, excl = some x → p.eventTime < x) ∧
        m = candOfPending q (text.data.map Char.toLower) now p)) ∧
    (∃ ws wd wi : ℝ, (0.5 : ℝ) ≤ ws ∧ ws ≤ 0.6 ∧ (0.2 : ℝ) ≤ wd ∧ wd ≤ 0.3 ∧
      wi = 0.1 ∧
      ∀ (ql : List Char) (emb : List ℝ) (et imp : ℚ) (tags : List String),
        memScore q ql emb et imp tags now =
          cosineSimilarity q emb * ws +
          (0.5 : ℝ) ^ (((((now - et : ℚ) : ℝ)) / 86400000) / 7) * wd +
          (imp : ℝ) * wi +
          (if tagMatches ql tags then (0.15 : ℝ) else 0) * 0.2) ∧
    (∀ (ql : List Char) (emb : List ℝ) (et imp : ℚ) (tags1 tags2 : List String),
      tagMatches ql tags1 = true → tagMatches ql tags2 = false →
      memScore q ql emb et imp tags2 now < memScore q ql emb et imp tags1 now) ∧
    ((retrieve st g q text pids topK excl now).length ≤ topK ∧
     (retrieve st g q text pids topK excl now).Pairwise
       (fun a b => b.score ≤ a.score) ∧
     ∃ rest, (retrieveCandidates st g q (text.data.map Char.toLower) excl now).Perm
        (retrieve st g q text pids topK excl now ++ rest) ∧
       ∀ a ∈ retrieve st g q text pids topK excl now, ∀ b ∈ rest,
         b.score ≤ a.score) := by
  have hsorted : ((retrieveCandidates st g q (text.data.map Char.toLower) excl
      now).mergeSort scoreDescB).Pairwise (fun a b => b.score ≤ a.score) := by
    have h := List.sorted_mergeSort scoreDescB_trans scoreDescB_total
      (retrieveCandidates st g q (text.data.map Char.toLower) excl now)
    exact h.imp (fun hab => by simpa [scoreDescB, decide_eq_true_eq] using hab)
  refine ⟨?_, ?_, ?_, ?_, ?_, ?_⟩
  · intro m hm
    have hm1 : m ∈ (retrieveCandidates st g q (text.data.map Char.toLower) excl
        now).mergeSort scoreDescB := List.mem_of_mem_take hm
    have hm2 : m ∈ retrieveCandidates st g q (text.data.map Char.toLower) excl
        now := List.mem_mergeSort.mp hm1
    unfold retrieveCandidates at hm2
    rcases List.mem_append.mp hm2 with hdb | hpd
    · left
      obtain ⟨row, hrow, heq⟩ := List.mem_filterMap.mp hdb
      have hrow2 := List.mem_filter.mp hrow
      have hcond := hrow2.2
      simp only [Bool.and_eq_true, beq_iff_eq, Bool.not_eq_eq_eq_not,
        Bool.not_true] at hcond
      by_cases hskip : skipByTime excl row.eventTime = true
      · rw [if_pos hskip] at heq
        exact absurd heq (by simp)
      · rw [if_neg hskip] at heq
        by_cases hemb : row.embedding.isEmpty = true
        · rw [if_pos hemb] at heq
          exact absurd heq (by simp)
        · rw [if_neg hemb] at heq
          refine ⟨row, hrow2.1, hcond.1, by simpa using hcond.2, ?_, ?_⟩
          · exact skipByTime_false excl row.eventTime hx
              (Bool.not_eq_true _ ▸ hskip)
          · exact (Option.some_inj.mp heq).symm
    · right
      obtain ⟨p, hp, heq⟩ := List.mem_filterMap.mp hpd
      have hp2 := List.mem_filter.mp hp
      have hcond := hp2.2
      simp only [beq_iff_eq] at hcond
      by_cases hskip : skipByTime excl p.eventTime = true
      · rw [if_pos hskip] at heq
        exact absurd heq (by simp)
      · rw [if_neg hskip] at heq
        by_cases hemb : p.embedding.isEmpty = true
        · rw [if_pos hemb] at heq
          exact absurd heq (by simp)
        · rw [if_neg hemb] at heq
          refine ⟨p, hp2.1, hcond, ?_, ?_⟩
          · exact skipByTime_false excl p.eventTime hx
              (Bool.not_eq_true _ ▸ hskip)
          · exact (Option.some_inj.mp heq).symm
  · refine ⟨0.5, 0.2, 0.1, by norm_num, by norm_num, by norm_num, by norm_num,
      rfl, ?_⟩
    intro ql emb et imp tags
    rfl
  · intro ql emb et imp tags1 tags2 h1 h2
    unfold memScore
    rw [h1, h2]
    simp only [if_true, if_false]
    have hdecay : (0 : ℝ) < (0.5 : ℝ) ^ ((((((now - et : ℚ) : ℝ)) / 86400000)) / 7) :=
      Real.rpow_pos_of_pos (by norm_num) _
    norm_num
  · unfold retrieve
    simp only [List.length_take, List.length_mergeSort]
    exact Nat.min_le_left topK _
  · unfold retrieve
    exact hsorted.sublist (List.take_sublist _ _)
  · have hretr : retrieve st g q text pids topK excl now =
        ((retrieveCandidates st g q (text.data.map Char.toLower) excl
          now).mergeSort scoreDescB).take topK := rfl
    refine ⟨((retrieveCandidates st g q (text.data.map Char.toLower) excl
      now).mergeSort scoreDescB).drop topK, ?_, ?_⟩
    · rw [hretr, List.take_append_drop]
      exact (List.mergeSort_perm _ _).symm
    · have hsorted2 : (((retrieveCandidates st g q (text.data.map Char.toLower)
          excl now).mergeSort scoreDescB).take topK ++
          ((retrieveCandidates st g q (text.data.map Char.toLower) excl
            now).mergeSort scoreDescB).drop topK).Pairwise
          (fun a b => b.score ≤ a.score) := by
        rw [List.take_append_drop]
        exact hsorted
      have hcross := (List.pairwise_append.mp hsorted2).2.2
      intro a ha b hb
      rw [hretr] at ha
      exact hcross a ha b hb

/-- Row of the C2 witness: one non-archived durable episode tagged 深夜. -/
def c2Row : EpisodicRow :=
  { id := 0
    groupId := "g1"
    summary := "深夜聊天"
    participants := ["u1"]
    tags := ["深夜"]
    embedding := [1]
    importance := 1/2
    emotionalValence := 0
    emotionalIntensity := 0
    mioInvolvement := .active
    accessCount := 0
    lastAccessed := 0
    eventTime := 0
    archived := false
    distilled := false
    distilledAt := 0
    createdAt := 0 }

/-- Working Memory state of the C2 witness. -/
def c2St : WMState :=
  { pendingEpisodic := []
    pendingRelUpdates := []
    sessionVibes := []
    episodicDb := [c2Row]
    relationalDb := []
    nextEpId := 1
    nextRelId := 0 }

/-- Witness for C2 at a concrete state: every memory returned for group g1
with no excludeAfter stems from the store or the pending queue, the result
respects the top-K bound, and a tag-matching candidate beats the identical
candidate without the match. -/
theorem C2_retrieve_witness :
    (∀ m ∈ retrieve c2St "g1" [1] "深夜 聊天 emo" ["u1"] 5 none 0,
      (∃ row ∈ c2St.episodicDb, row.groupId = "g1" ∧ row.archived = false ∧
        (∀ x, (none : Option ℚ) = some x → row.eventTime < x) ∧
        m = candOfRow [1] ("深夜 聊天 emo".data.map Char.toLower) 0 row) ∨
      (∃ p ∈ c2St.pendingEpisodic, p.groupId = "g1" ∧
        (∀ x, (none : Option ℚ) = some x → p.eventTime < x) ∧
        m = candOfPending [1] ("深夜 聊天 emo".data.map Char.toLower) 0 p)) ∧
    (retrieve c2St "g1" [1] "深夜 聊天 emo" ["u1"] 5 none 0).length ≤ 5 ∧
    memScore [1] ("深夜 聊天 emo".data.map Char.toLower) [1] 0 (1/2) [] 0 <
      memScore [1] ("深夜 聊天 emo".data.map Char.toLower) [1] 0 (1/2) ["深夜"] 0 := by
  have h := C2_retrieve c2St "g1" [1] "深夜 聊天 emo" ["u1"] 5 none 0
    (fun x hx => by cases hx)
  refine ⟨h.1, h.2.2.2.1, ?_⟩
  apply h.2.2.1
  · decide
  · decide


end Mio
